import Mathlib

/-!
Verification of the billing aggregation and forecasting engine
(DigitalOcean billing dashboard).  The JavaScript source is shallowly
embedded: records are ordered key/value field lists, JS numbers are
modelled as rationals, JS `parseFloat` is modelled on decimal literals
(the only shapes the engine feeds it), and fallible operations return
`Option`.  Each definition mirrors one function of
`src/utils/dataUtils.js` / `src/utils/csvUtils.js`.
-/

/-- A JS field value as delivered by the CSV parser / API: a string or a
number.  Other JS types do not occur in the records the engine consumes. -/
inductive JSVal where
  | str (s : String)
  | num (q : ℚ)
deriving DecidableEq, Repr

/-- A line-item / invoice record: an ordered association list of fields,
mirroring a flat JS object (insertion-ordered, unique keys). -/
abbrev Item := List (String × JSVal)

/-- `key in obj` / `obj[key]`: the first field with the given name. -/
def getField (item : Item) (k : String) : Option JSVal :=
  (item.find? (fun kv => kv.1 = k)).map (fun kv => kv.2)

/-- JS truthy string access `item.k || none`: the field's string value when
it is a present, non-empty string (the engine's text fields are strings). -/
def textOr (item : Item) (k : String) : Option String :=
  match getField item k with
  | some (JSVal.str s) => if s = "" then none else some s
  | _ => none

/-- ASCII upper/lower case pairs, for `String.prototype.toLowerCase`
(the engine's text fields are ASCII). -/
def lowerPairs : List (Char × Char) :=
  [('A', 'a'), ('B', 'b'), ('C', 'c'), ('D', 'd'), ('E', 'e'), ('F', 'f'),
   ('G', 'g'), ('H', 'h'), ('I', 'i'), ('J', 'j'), ('K', 'k'), ('L', 'l'),
   ('M', 'm'), ('N', 'n'), ('O', 'o'), ('P', 'p'), ('Q', 'q'), ('R', 'r'),
   ('S', 's'), ('T', 't'), ('U', 'u'), ('V', 'v'), ('W', 'w'), ('X', 'x'),
   ('Y', 'y'), ('Z', 'z')]

/-- Lower-case one character. -/
def charToLower (c : Char) : Char :=
  match lowerPairs.find? (fun p => p.1 = c) with
  | some p => p.2
  | none => c

/-- `s.toLowerCase()`. -/
def lowerString (s : String) : String :=
  String.mk (s.data.map charToLower)

/-- `s.includes(c)` for a single character. -/
def strHasChar (s : String) (c : Char) : Bool :=
  s.data.any (fun a => a = c)

/-- Is `p` a prefix of the second list? -/
def charsPrefix : List Char → List Char → Bool
  | [], _ => true
  | _ :: _, [] => false
  | a :: as, b :: bs => a = b && charsPrefix as bs

/-- Does the second list contain `needle` as a contiguous sublist? -/
def charsInfix (needle : List Char) : List Char → Bool
  | [] => needle.isEmpty
  | b :: bs => charsPrefix needle (b :: bs) || charsInfix needle bs

/-- `haystack.includes(needle)`: contiguous substring test. -/
def strContainsB (haystack needle : String) : Bool :=
  charsInfix needle.data haystack.data

/-- Digits to a natural number, most significant first. -/
def natOfDigits (ds : List Char) : ℕ :=
  ds.foldl (fun acc c => acc * 10 + (c.toNat - '0'.toNat)) 0

/-- Fractional part from the digits after the decimal point. -/
def fracOfDigits (ds : List Char) : ℚ :=
  (natOfDigits ds : ℚ) / (10 : ℚ) ^ ds.length

/-- JS `parseFloat` on a character list: optional sign, then the longest
`digits [. digits]` prefix; `none` models `NaN` (no digit consumed).
Exponent notation never occurs in the engine's inputs and is not modelled. -/
def parseFloatFrom (cs : List Char) : Option ℚ :=
  let signAndRest : ℚ × List Char :=
    match cs with
    | '-' :: t => (-1, t)
    | '+' :: t => (1, t)
    | t => (1, t)
  let intPart := signAndRest.2.takeWhile Char.isDigit
  let afterInt := signAndRest.2.dropWhile Char.isDigit
  let fracPart :=
    match afterInt with
    | '.' :: t => t.takeWhile Char.isDigit
    | _ => []
  if intPart.isEmpty && fracPart.isEmpty then none
  else some (signAndRest.1 * ((natOfDigits intPart : ℚ) + fracOfDigits fracPart))

/-- JS `parseFloat` on a string (leading spaces skipped). -/
def parseFloat (s : String) : Option ℚ :=
  parseFloatFrom (s.data.dropWhile (fun c => c = ' '))

/-- JS `parseFloat` applied to a field value: a number is returned as is
(JS stringifies and re-parses it, the identity on the decimals used here). -/
def jsParseFloat (v : JSVal) : Option ℚ :=
  match v with
  | JSVal.str s => parseFloat s
  | JSVal.num q => some q

/-- `value.replace(/[^\d.-]/g, '')`: keep only digits, `.` and `-`. -/
def cleanCurrency (s : String) : String :=
  String.mk (s.data.filter (fun c => c.isDigit || c = '.' || c = '-'))

/-- `parseFloat(item.k)` guarded by `!isNaN`: the parsed field value. -/
def fieldAsFloat (item : Item) (k : String) : Option ℚ :=
  (getField item k).bind jsParseFloat

/-- The final field scan of `extractMonetaryValue`: walk the remaining
fields in order, skipping `hours` and `invoice_amount`; a string containing
`$` or `-` is cleaned and parsed (a failed parse falls through), any
numeric field is returned; `0` when nothing matches. -/
def fallbackScan : List (String × JSVal) → ℚ
  | [] => 0
  | (k, v) :: rest =>
    if k = "hours" || k = "invoice_amount" then fallbackScan rest
    else
      match v with
      | JSVal.str s =>
        if strHasChar s '$' || strHasChar s '-' then
          match parseFloat (cleanCurrency s) with
          | some x => x
          | none => fallbackScan rest
        else fallbackScan rest
      | JSVal.num q => q

/-- The `amount`/`cost`/`price`/`charge` cascade followed by the field
scan (everything `extractMonetaryValue` does after the `USD` branch). -/
def extractAfterUSD (item : Item) : ℚ :=
  match fieldAsFloat item "amount" with
  | some a => a
  | none =>
    match fieldAsFloat item "cost" with
    | some c => c
    | none =>
      match fieldAsFloat item "price" with
      | some p => p
      | none =>
        match fieldAsFloat item "charge" with
        | some c => c
        | none => fallbackScan item

/-- `extractMonetaryValue(item)`: the `USD` field first (string values are
cleaned of every character that is not a digit, `.` or `-`, then parsed;
an unparseable string falls through), then the named-field cascade, then
the ordered fallback scan, else `0`. -/
def extractMonetaryValue (item : Item) : ℚ :=
  match getField item "USD" with
  | some (JSVal.str s) =>
    (match parseFloat (cleanCurrency s) with
     | some x => x
     | none => extractAfterUSD item)
  | some (JSVal.num q) => q
  | none => extractAfterUSD item

/-- `(item.k || '').toLowerCase()` for the engine's text fields. -/
def lowerTextField (item : Item) (k : String) : String :=
  match getField item k with
  | some (JSVal.str s) => lowerString s
  | _ => ""

/-- The discount keywords of `isDiscountItem`. -/
def discountKeywords : List String :=
  ["discount", "credit", "refund", "rebate", "adjustment"]

/-- `isDiscountItem(item)`: negative extracted amount, or a discount
keyword in `description`, `category`, `product` or `name` (lower-cased). -/
def isDiscountItem (item : Item) : Bool :=
  if extractMonetaryValue item < 0 then true
  else
    let description := lowerTextField item "description"
    let category := lowerTextField item "category"
    let product := lowerTextField item "product"
    let name := lowerTextField item "name"
    discountKeywords.any (fun kw =>
      strContainsB description kw || strContainsB category kw ||
      strContainsB product kw || strContainsB name kw)

/-- `categorizeDiscountItem(item)`: `iaas`/`paas` are looked for in the
lower-cased `description` and `category`, `contract` in `description`
only; the JS also lower-cases `product` but never consults it. -/
def categorizeDiscountItem (item : Item) : String :=
  let description := lowerTextField item "description"
  let category := lowerTextField item "category"
  if strContainsB description "iaas" || strContainsB category "iaas" then
    "IaaS Discount"
  else if strContainsB description "paas" || strContainsB category "paas" then
    "PaaS Discount"
  else if strContainsB description "contract" then
    "Contract Discount"
  else
    "Discounts"

/-- The discount-taxonomy rules as the spec models them: an ordered list of
(substring, fields to search, label) entries, evaluated top to bottom. -/
def discountRules : List (String × List String × String) :=
  [("iaas", (["description", "category"], "IaaS Discount")),
   ("paas", (["description", "category"], "PaaS Discount")),
   ("contract", (["description"], "Contract Discount"))]

/-- Evaluate the ordered discount-taxonomy rule list: the first rule whose
substring occurs in one of its fields (lower-cased) gives the label, with
default label `Discounts`. -/
def evalDiscountRules (item : Item) : String :=
  match discountRules.find?
      (fun r => r.2.1.any (fun f => strContainsB (lowerTextField item f) r.1)) with
  | some r => r.2.2
  | none => "Discounts"

theorem charsPrefix_iff : ∀ (p l : List Char), charsPrefix p l = true ↔ p <+: l
  | [], l => by simp [charsPrefix]
  | a :: as, [] => by simp [charsPrefix]
  | a :: as, b :: bs => by
    rw [charsPrefix, Bool.and_eq_true, decide_eq_true_eq, List.cons_prefix_cons,
      charsPrefix_iff as bs]

theorem charsInfix_iff (n : List Char) : ∀ (h : List Char), charsInfix n h = true ↔ n <:+: h
  | [] => by simp [charsInfix, List.isEmpty_iff]
  | b :: bs => by
    rw [charsInfix, Bool.or_eq_true, charsPrefix_iff, charsInfix_iff n bs,
      List.infix_cons_iff]

theorem strContainsB_iff (hay needle : String) :
    strContainsB hay needle = true ↔ needle.data <:+: hay.data := by
  rw [strContainsB, charsInfix_iff]

/-- C2: if a record's `USD` field is a string whose cleaned form (every
character that is not a digit, `.` or `-` removed) parses to `x`, the
extractor returns `x`, whatever the other fields hold: the `USD` branch
has priority over every other candidate field.  In particular
`"-$1,779.55"` extracts to `-1779.55` (see the witness). -/
theorem usd_field_priority (item : Item) (s : String) (x : ℚ)
    (hf : getField item "USD" = some (JSVal.str s))
    (hp : parseFloat (cleanCurrency s) = some x) :
    extractMonetaryValue item = x := by
  simp [extractMonetaryValue, hf, hp]

theorem usd_field_priority_w :
    getField [("USD", JSVal.str "-$1,779.55"), ("amount", JSVal.str "7")] "USD"
        = some (JSVal.str "-$1,779.55")
    ∧ parseFloat (cleanCurrency "-$1,779.55") = some (-1779.55)
    ∧ extractMonetaryValue [("USD", JSVal.str "-$1,779.55"), ("amount", JSVal.str "7")]
        = -1779.55 :=
  ⟨by simp +decide [getField],
   by simp +decide [parseFloat, parseFloatFrom, cleanCurrency, natOfDigits, fracOfDigits]
      norm_num,
   usd_field_priority _ "-$1,779.55" (-1779.55)
     (by simp +decide [getField])
     (by simp +decide [parseFloat, parseFloatFrom, cleanCurrency, natOfDigits, fracOfDigits]
         norm_num)⟩

/-- C3: a record whose `USD` field is the string `"25.00"` extracts `25`
no matter what else it carries (in particular an `invoice_amount` of
`"4000.00"`), and the fallback field scan never selects the `hours` or
`invoice_amount` fields: removing them from the record does not change
its result. -/
theorem amount_denylist (item : Item) :
    (getField item "USD" = some (JSVal.str "25.00") →
      getField item "invoice_amount" = some (JSVal.str "4000.00") →
      extractMonetaryValue item = 25)
    ∧ fallbackScan item
        = fallbackScan
            (item.filter (fun kv => !(kv.1 == "hours" || kv.1 == "invoice_amount"))) := by
  constructor
  · intro h1 _
    have hp : parseFloat (cleanCurrency "25.00") = some 25 := by
      simp +decide [parseFloat, parseFloatFrom, cleanCurrency, natOfDigits, fracOfDigits]
    simp [extractMonetaryValue, h1, hp]
  · induction item with
    | nil => rfl
    | cons kv rest ih =>
      obtain ⟨k, v⟩ := kv
      by_cases hk : k = "hours" ∨ k = "invoice_amount"
      · have hb : (k == "hours" || k == "invoice_amount") = true := by
          rcases hk with h | h <;> simp [h]
        have hcond : (k = "hours" || k = "invoice_amount") = true := by
          rcases hk with h | h <;> simp [h]
        simp only [List.filter, hb, Bool.not_true, fallbackScan, hcond, if_true]
        exact ih
      · push_neg at hk
        have hb : (k == "hours" || k == "invoice_amount") = false := by
          simp [hk.1, hk.2]
        have hcond : (k = "hours" || k = "invoice_amount") = false := by
          simp [hk.1, hk.2]
        simp only [List.filter, hb, Bool.not_false]
        simp only [fallbackScan, hcond]
        cases v with
        | num q => simp
        | str s =>
          by_cases hs : (strHasChar s '$' || strHasChar s '-') = true
          · simp only [hs, if_true, Bool.false_eq_true, if_false]
            cases hps : parseFloat (cleanCurrency s) with
            | none => simpa [hps] using ih
            | some x => simp [hps]
          · simp only [Bool.not_eq_true] at hs
            simpa [hs] using ih

theorem amount_denylist_w :
    getField [("USD", JSVal.str "25.00"), ("invoice_amount", JSVal.str "4000.00")] "USD"
        = some (JSVal.str "25.00")
    ∧ extractMonetaryValue [("USD", JSVal.str "25.00"), ("invoice_amount", JSVal.str "4000.00")]
        = 25 :=
  ⟨by simp +decide [getField],
   (amount_denylist [("USD", JSVal.str "25.00"), ("invoice_amount", JSVal.str "4000.00")]).1
     (by simp +decide [getField]) (by simp +decide [getField])⟩

/-- C4: the discount classifier accepts a record exactly when the extracted
amount is negative or one of `description`, `category`, `product`, `name`
(lower-cased) contains one of the keywords `discount`, `credit`, `refund`,
`rebate`, `adjustment`; and a record of amount `0` whose description is
`"Contract Discount"` is classified as a discount. -/
theorem isDiscountItem_characterization :
    (∀ item : Item,
      isDiscountItem item = true ↔
        extractMonetaryValue item < 0 ∨
          ∃ kw ∈ discountKeywords,
            kw.data <:+: (lowerTextField item "description").data ∨
            kw.data <:+: (lowerTextField item "category").data ∨
            kw.data <:+: (lowerTextField item "product").data ∨
            kw.data <:+: (lowerTextField item "name").data)
    ∧ extractMonetaryValue [("USD", JSVal.str "0.00"),
        ("description", JSVal.str "Contract Discount")] = 0
    ∧ isDiscountItem [("USD", JSVal.str "0.00"),
        ("description", JSVal.str "Contract Discount")] = true := by
  refine ⟨fun item => ?_, ?_, ?_⟩
  · unfold isDiscountItem
    by_cases hneg : extractMonetaryValue item < 0
    · simp [hneg]
    · simp only [hneg, if_false, List.any_eq_true, Bool.or_eq_true, strContainsB_iff,
        false_or, or_assoc]
  · simp +decide [extractMonetaryValue, getField, parseFloat, parseFloatFrom,
      cleanCurrency, natOfDigits, fracOfDigits]
  · simp +decide [isDiscountItem, extractMonetaryValue, getField, parseFloat,
      parseFloatFrom, cleanCurrency, natOfDigits, fracOfDigits, lowerTextField,
      lowerString, charToLower, lowerPairs, discountKeywords, strContainsB,
      charsInfix, charsPrefix]

/-- C5 counterexample: a discount record whose only taxonomy evidence is a
`product` field containing `iaas` is mapped to the default `Discounts`
label, not to `IaaS Discount`, and a discount record whose `category`
contains `contract` is also mapped to `Discounts`, not `Contract
Discount`: the categorizer never consults `product`, and matches
`contract` in `description` only. -/
theorem categorize_ignores_product_cex :
    isDiscountItem [("product", JSVal.str "iaas"), ("USD", JSVal.str "-5.00")] = true
    ∧ categorizeDiscountItem [("product", JSVal.str "iaas"), ("USD", JSVal.str "-5.00")]
        = "Discounts"
    ∧ isDiscountItem [("category", JSVal.str "contract"), ("USD", JSVal.str "-5.00")] = true
    ∧ categorizeDiscountItem [("category", JSVal.str "contract"), ("USD", JSVal.str "-5.00")]
        = "Discounts"
    ∧ "Discounts" ≠ "IaaS Discount" ∧ "Discounts" ≠ "Contract Discount" := by
  refine ⟨?_, ?_, ?_, ?_, by decide, by decide⟩ <;>
    simp +decide [isDiscountItem, categorizeDiscountItem, extractMonetaryValue, getField,
      parseFloat, parseFloatFrom, cleanCurrency, natOfDigits, fracOfDigits, lowerTextField,
      lowerString, charToLower, lowerPairs, discountKeywords, strContainsB,
      charsInfix, charsPrefix, extractAfterUSD, fieldAsFloat, jsParseFloat, fallbackScan,
      strHasChar]

/-- C5 (amended): the discount categorizer is exactly the evaluation of the
ordered rule list `iaas ↦ IaaS Discount` and `paas ↦ PaaS Discount`
(matched case-insensitively against `description` and `category`), then
`contract ↦ Contract Discount` (matched against `description` only),
first match wins, with default label `Discounts`; `product` is never
consulted. -/
theorem categorizeDiscountItem_rules (item : Item) :
    categorizeDiscountItem item = evalDiscountRules item := by
  unfold categorizeDiscountItem evalDiscountRules discountRules
  simp only [List.find?, List.any_cons, List.any_nil, Bool.or_false]
  by_cases h1 : (strContainsB (lowerTextField item "description") "iaas"
      || strContainsB (lowerTextField item "category") "iaas") = true
  · simp [h1]
  · rw [Bool.not_eq_true] at h1
    by_cases h2 : (strContainsB (lowerTextField item "description") "paas"
        || strContainsB (lowerTextField item "category") "paas") = true
    · simp [h1, h2]
    · rw [Bool.not_eq_true] at h2
      by_cases h3 : strContainsB (lowerTextField item "description") "contract" = true
      · simp [h1, h2, h3]
      · rw [Bool.not_eq_true] at h3
        simp [h1, h2, h3]

/-- C10: a record with no `USD`, `amount`, `cost`, `price` or `charge`
field whose first remaining field is the date string `"2024-05-01"` (not
on the deny-list) extracts `2024`, not `0`: the hyphen makes the fallback
scan treat the date as currency-like and `parseFloat` reads its leading
digits. -/
theorem fallback_scan_date_mistaken_for_amount :
    extractMonetaryValue [("start", JSVal.str "2024-05-01")] = 2024
    ∧ (2024 : ℚ) ≠ 0 := by
  constructor
  · simp +decide [extractMonetaryValue, getField, extractAfterUSD, fieldAsFloat,
      jsParseFloat, fallbackScan, strHasChar, parseFloat, parseFloatFrom,
      cleanCurrency, natOfDigits, fracOfDigits]
  · norm_num

/-- A JS `Date` at day resolution (time of day never affects the engine's
comparisons): a month index `12 * year + month` counted from year 0, and
a day of month.  Day/month overflow normalization of JS dates is absorbed
by the timestamp function `ts`. -/
structure Dt where
  mi : ℕ
  day : ℕ
deriving DecidableEq, Repr

/-- Gregorian leap year. -/
def isLeapYear (y : ℕ) : Bool :=
  (y % 4 = 0 && !(y % 100 = 0)) || y % 400 = 0

/-- Length of the month with the given month index. -/
def daysInMonthIdx (mi : ℕ) : ℕ :=
  let m := mi % 12
  if m = 0 then 31
  else if m = 1 then (if isLeapYear (mi / 12) then 29 else 28)
  else if m = 2 then 31 else if m = 3 then 30 else if m = 4 then 31
  else if m = 5 then 30 else if m = 6 then 31 else if m = 7 then 31
  else if m = 8 then 30 else if m = 9 then 31 else if m = 10 then 30
  else 31

/-- Days in all months before the given month index. -/
def daysBefore : ℕ → ℕ
  | 0 => 0
  | mi + 1 => daysBefore mi + daysInMonthIdx mi

/-- Absolute day number of a date; mirrors `Date.getTime` up to the
strictly monotone rescaling from days to milliseconds. -/
def ts (d : Dt) : ℕ := daysBefore d.mi + d.day

/-- `new Date(0)`: the epoch, 1970-01-01. -/
def epochDt : Dt := ⟨1970 * 12, 1⟩

/-- `d.setMonth(d.getMonth() - n)` (day of month kept).  Faithful for
`n ≤ d.mi`, which holds for every common-era date the engine meets. -/
def monthsBack (d : Dt) (n : ℕ) : Dt := ⟨d.mi - n, d.day⟩

/-- `>` on possibly-invalid JS dates (`none` models an Invalid Date):
any comparison against `NaN` is false. -/
def dtGT : Option Dt → Option Dt → Bool
  | some a, some b => decide (ts b < ts a)
  | _, _ => false

/-- The `getFullYear`/`getMonth` equality test of the one-month filter;
false when either date is invalid (`NaN === NaN` is false). -/
def sameMonthB : Option Dt → Option Dt → Bool
  | some a, some b => a.mi / 12 = b.mi / 12 && a.mi % 12 = b.mi % 12
  | _, _ => false

/-- A normalized calendar date, as produced by the host date parser. -/
def normDt (d : Dt) : Bool := 1 ≤ d.day && d.day ≤ daysInMonthIdx d.mi

/-- `invoice.invoice_period || invoice.created_at` as a string. -/
def invPeriodOrCreated (inv : Item) : Option String :=
  match textOr inv "invoice_period" with
  | some s => some s
  | none => textOr inv "created_at"

/-- `new Date(invoice.invoice_period || invoice.created_at || 0)`: the
per-invoice date used by the reduce and the filters (`|| 0` = epoch). -/
def invEffDate (dparse : String → Option Dt) (inv : Item) : Option Dt :=
  match invPeriodOrCreated inv with
  | some s => dparse s
  | none => some epochDt

/-- `new Date(invoice.invoice_period || invoice.created_at)` (no `|| 0`):
the anchor date, Invalid when neither field is present. -/
def invAnchorDate (dparse : String → Option Dt) (inv : Item) : Option Dt :=
  match invPeriodOrCreated inv with
  | some s => dparse s
  | none => none

/-- Timestamp of an invoice's effective date (0 for an invalid date). -/
def invTs (dparse : String → Option Dt) (inv : Item) : ℕ :=
  match invEffDate dparse inv with
  | some d => ts d
  | none => 0

/-- The `reduce` of `filterInvoicesByTimeRange` picking the most recent
invoice (strict `>`, so the earliest of several maxima is kept). -/
def mostRecentInv (dparse : String → Option Dt) (first : Item) (invs : List Item) : Item :=
  invs.foldl (fun latest current =>
    if dtGT (invEffDate dparse current) (invEffDate dparse latest) then current
    else latest) first

/-- `filterInvoicesByTimeRange(invoices, selectedRange)`.  `dparse` is the
host JS date parser, `now` is `new Date()`. -/
def filterInvoicesByTimeRange (dparse : String → Option Dt) (now : Dt)
    (invoices : List Item) (selectedRange : String) : List Item :=
  match invoices with
  | [] => []
  | inv0 :: _ =>
    let mostRecentDate := invAnchorDate dparse (mostRecentInv dparse inv0 invoices)
    if selectedRange = "1month" then
      invoices.filter (fun inv => sameMonthB (invEffDate dparse inv) mostRecentDate)
    else
      let filterDate : Dt :=
        if selectedRange = "3months" then monthsBack now 4
        else if selectedRange = "6months" then monthsBack now 7
        else if selectedRange = "12months" then monthsBack now 13
        else if selectedRange = "all" then ⟨2000 * 12 + now.mi % 12, now.day⟩
        else monthsBack now 6
      invoices.filter (fun inv =>
        match invEffDate dparse inv with
        | some d => decide (ts filterDate ≤ ts d)
        | none => false)

/-- Is the string in `YYYY-MM` form (`/^\d{4}-\d{2}$/`)? -/
def isYYYYMM (s : String) : Bool :=
  match s.data with
  | [a, b, c, d, '-', e, f] =>
    a.isDigit && b.isDigit && c.isDigit && d.isDigit && e.isDigit && f.isDigit
  | _ => false

/-- The per-item date of the line-item filter: the first present field
among `invoice_period` (with `YYYY-MM` completed to a full date), `date`,
`start`, `created_at`, `invoice_date`; `some none` when the field does
not parse (Invalid Date), `none` when no date field exists. -/
def itemEffDate (dparse : String → Option Dt) (item : Item) : Option (Option Dt) :=
  match textOr item "invoice_period" with
  | some s => some (if isYYYYMM s then dparse (s ++ "-01") else dparse s)
  | none =>
    match textOr item "date" with
    | some s => some (dparse s)
    | none =>
      match textOr item "start" with
      | some s => some (dparse s)
      | none =>
        match textOr item "created_at" with
        | some s => some (dparse s)
        | none =>
          match textOr item "invoice_date" with
          | some s => some (dparse s)
          | none => none

/-- `filterLineItemsByTimeRange(lineItems, selectedRange)`: a fixed
look-back from `now`; items with no determinable date are included. -/
def filterLineItemsByTimeRange (dparse : String → Option Dt) (now : Dt)
    (lineItems : List Item) (selectedRange : String) : List Item :=
  match lineItems with
  | [] => []
  | _ :: _ =>
    if selectedRange = "all" then lineItems
    else
      let filterDate : Dt :=
        if selectedRange = "1month" then monthsBack now 2
        else if selectedRange = "3months" then monthsBack now 4
        else if selectedRange = "6months" then monthsBack now 7
        else if selectedRange = "12months" then monthsBack now 13
        else monthsBack now 7
      lineItems.filter (fun item =>
        match itemEffDate dparse item with
        | some (some d) => decide (ts filterDate ≤ ts d)
        | _ => true)

theorem daysBefore_le_add (a k : ℕ) : daysBefore a ≤ daysBefore (a + k) := by
  induction k with
  | zero => exact le_refl _
  | succ k ih =>
    rw [Nat.add_succ, daysBefore]
    exact le_trans ih (Nat.le_add_right _ _)

theorem daysBefore_mono {a b : ℕ} (h : a ≤ b) : daysBefore a ≤ daysBefore b := by
  have := daysBefore_le_add a (b - a)
  rwa [Nat.add_sub_cancel' h] at this

theorem ts_monthsBack_antitone (d : Dt) {n m : ℕ} (h : n ≤ m) :
    ts (monthsBack d m) ≤ ts (monthsBack d n) := by
  unfold ts monthsBack
  exact Nat.add_le_add_right (daysBefore_mono (Nat.sub_le_sub_left h d.mi)) d.day

theorem filterLineItems_window_monotone (dparse : String → Option Dt) (now : Dt) (items : List Item)
    (h13 : 13 ≤ now.mi) :
    (∀ x ∈ filterLineItemsByTimeRange dparse now items "3months",
        x ∈ filterLineItemsByTimeRange dparse now items "6months")
    ∧ (∀ x ∈ filterLineItemsByTimeRange dparse now items "6months",
        x ∈ filterLineItemsByTimeRange dparse now items "12months")
    ∧ (∀ x ∈ filterLineItemsByTimeRange dparse now items "12months",
        x ∈ filterLineItemsByTimeRange dparse now items "all") := by
  match items with
  | [] => simp [filterLineItemsByTimeRange]
  | i0 :: rest =>
    refine ⟨?_, ?_, ?_⟩ <;> intro x hx
    · simp only [filterLineItemsByTimeRange, if_neg (by decide : ¬("3months":String) = "all"),
        if_neg (by decide : ¬("6months":String) = "all"),
        if_neg (by decide : ¬("3months":String) = "1month"),
        if_neg (by decide : ¬("6months":String) = "1month"),
        if_pos (rfl : ("3months":String) = "3months"),
        if_neg (by decide : ¬("6months":String) = "3months"),
        if_pos (rfl : ("6months":String) = "6months"),
        List.mem_filter] at hx ⊢
      refine ⟨hx.1, ?_⟩
      have hp := hx.2
      cases heff : itemEffDate dparse x with
      | none => simp [heff]
      | some od =>
        cases od with
        | none => simp [heff]
        | some d =>
          simp only [heff, decide_eq_true_eq] at hp ⊢
          exact le_trans (ts_monthsBack_antitone now (by norm_num)) hp
    · simp only [filterLineItemsByTimeRange, if_neg (by decide : ¬("6months":String) = "all"),
        if_neg (by decide : ¬("12months":String) = "all"),
        if_neg (by decide : ¬("6months":String) = "1month"),
        if_neg (by decide : ¬("12months":String) = "1month"),
        if_neg (by decide : ¬("6months":String) = "3months"),
        if_neg (by decide : ¬("12months":String) = "3months"),
        if_pos (rfl : ("6months":String) = "6months"),
        if_neg (by decide : ¬("12months":String) = "6months"),
        if_pos (rfl : ("12months":String) = "12months"),
        List.mem_filter] at hx ⊢
      refine ⟨hx.1, ?_⟩
      have hp := hx.2
      cases heff : itemEffDate dparse x with
      | none => simp [heff]
      | some od =>
        cases od with
        | none => simp [heff]
        | some d =>
          simp only [heff, decide_eq_true_eq] at hp ⊢
          exact le_trans (ts_monthsBack_antitone now (by norm_num)) hp
    · simp only [filterLineItemsByTimeRange,
        if_neg (by decide : ¬("12months":String) = "all"),
        if_pos (rfl : ("all":String) = "all"), List.mem_filter] at hx ⊢
      exact hx.1

/-- The invoice's effective date exists and is a normalized calendar date
(the host parser accepted the date field). -/
def invDateOk (dparse : String → Option Dt) (inv : Item) : Bool :=
  match invEffDate dparse inv with
  | some d => normDt d
  | none => false

theorem mostRecentInv_cons (dparse : String → Option Dt) (first i : Item) (rest : List Item) :
    mostRecentInv dparse first (i :: rest)
      = mostRecentInv dparse
          (if dtGT (invEffDate dparse i) (invEffDate dparse first) then i else first)
          rest := rfl

theorem mostRecentInv_mem (dparse : String → Option Dt) :
    ∀ (invs : List Item) (first : Item),
      mostRecentInv dparse first invs = first ∨ mostRecentInv dparse first invs ∈ invs
  | [], first => Or.inl rfl
  | i :: rest, first => by
    rw [mostRecentInv_cons]
    rcases mostRecentInv_mem dparse rest
        (if dtGT (invEffDate dparse i) (invEffDate dparse first) then i else first) with h | h
    · rw [h]; split
      · exact Or.inr (List.mem_cons_self _ _)
      · exact Or.inl rfl
    · exact Or.inr (List.mem_cons_of_mem _ h)

theorem mostRecentInv_max (dparse : String → Option Dt) :
    ∀ (invs : List Item) (first : Item),
      (invEffDate dparse first).isSome = true →
      (∀ i ∈ invs, (invEffDate dparse i).isSome = true) →
      ((invEffDate dparse (mostRecentInv dparse first invs)).isSome = true
       ∧ invTs dparse first ≤ invTs dparse (mostRecentInv dparse first invs)
       ∧ ∀ i ∈ invs, invTs dparse i ≤ invTs dparse (mostRecentInv dparse first invs))
  | [], first, hf, _ => ⟨hf, le_refl _, by simp⟩
  | i :: rest, first, hf, hv => by
    obtain ⟨df, hdf⟩ := Option.isSome_iff_exists.mp hf
    obtain ⟨di, hdi⟩ := Option.isSome_iff_exists.mp (hv i (List.mem_cons_self i rest))
    rw [mostRecentInv_cons]
    have hrest : ∀ j ∈ rest, (invEffDate dparse j).isSome = true :=
      fun j hj => hv j (List.mem_cons_of_mem _ hj)
    by_cases hgt : dtGT (invEffDate dparse i) (invEffDate dparse first) = true
    · rw [if_pos hgt]
      have h := mostRecentInv_max dparse rest i (by rw [hdi]; rfl) hrest
      have hfi : invTs dparse first ≤ invTs dparse i := by
        rw [hdi, hdf] at hgt
        simp only [dtGT, decide_eq_true_eq] at hgt
        unfold invTs
        rw [hdi, hdf]
        exact le_of_lt hgt
      refine ⟨h.1, le_trans hfi h.2.1, ?_⟩
      intro j hj
      rcases List.mem_cons.mp hj with rfl | hj'
      · exact h.2.1
      · exact h.2.2 j hj'
    · rw [if_neg hgt]
      have h := mostRecentInv_max dparse rest first hf hrest
      refine ⟨h.1, h.2.1, ?_⟩
      intro j hj
      rcases List.mem_cons.mp hj with rfl | hj'
      · have hif : invTs dparse j ≤ invTs dparse first := by
          rw [hdi, hdf] at hgt
          simp only [dtGT, decide_eq_true_eq] at hgt
          unfold invTs
          rw [hdi, hdf]
          exact Nat.le_of_not_lt hgt
        exact le_trans hif h.2.1
      · exact h.2.2 j hj'

theorem ts_lt_of_mi_lt {a b : Dt} (hmi : a.mi < b.mi)
    (hna : normDt a = true) (hnb : normDt b = true) : ts a < ts b := by
  simp only [normDt, Bool.and_eq_true, decide_eq_true_eq] at hna hnb
  unfold ts
  calc daysBefore a.mi + a.day
      ≤ daysBefore a.mi + daysInMonthIdx a.mi := Nat.add_le_add_left hna.2 _
    _ = daysBefore (a.mi + 1) := rfl
    _ ≤ daysBefore b.mi := daysBefore_mono hmi
    _ < daysBefore b.mi + b.day := Nat.lt_add_of_pos_right hnb.1

theorem ts_mi_inj {a b : Dt} (hna : normDt a = true) (hnb : normDt b = true)
    (h : ts a = ts b) : a.mi = b.mi := by
  rcases Nat.lt_trichotomy a.mi b.mi with hlt | heq | hgt
  · exact absurd h (Nat.ne_of_lt (ts_lt_of_mi_lt hlt hna hnb))
  · exact heq
  · exact absurd h.symm (Nat.ne_of_lt (ts_lt_of_mi_lt hgt hnb hna))

theorem invAnchorDate_eq_eff (dparse : String → Option Dt) (inv : Item)
    (h : (invPeriodOrCreated inv).isSome = true) :
    invAnchorDate dparse inv = invEffDate dparse inv := by
  obtain ⟨s, hs⟩ := Option.isSome_iff_exists.mp h
  unfold invAnchorDate invEffDate
  rw [hs]

theorem sameMonthB_congr {d1 d2 : Dt} (h : d1.mi = d2.mi) (x : Option Dt) :
    sameMonthB x (some d1) = sameMonthB x (some d2) := by
  cases x with
  | none => rfl
  | some a => simp only [sameMonthB, h]

theorem filterInvoices_lastMonth_anchor (dparse : String → Option Dt) (now now' : Dt)
    (invs : List Item) (anchor : Item) (ha : anchor ∈ invs)
    (hfield : ∀ i ∈ invs, (invPeriodOrCreated i).isSome = true)
    (hok : ∀ i ∈ invs, invDateOk dparse i = true)
    (hmax : ∀ i ∈ invs, invTs dparse i ≤ invTs dparse anchor) :
    filterInvoicesByTimeRange dparse now invs "1month"
      = invs.filter (fun i => sameMonthB (invEffDate dparse i) (invEffDate dparse anchor))
    ∧ filterInvoicesByTimeRange dparse now invs "1month"
      = filterInvoicesByTimeRange dparse now' invs "1month" := by
  have hvalid : ∀ i ∈ invs, (invEffDate dparse i).isSome = true := by
    intro i hi
    have := hok i hi
    unfold invDateOk at this
    cases h : invEffDate dparse i with
    | none => rw [h] at this; exact absurd this (by simp)
    | some d => rfl
  have hnormed : ∀ i ∈ invs, ∀ d, invEffDate dparse i = some d → normDt d = true := by
    intro i hi d hd
    have := hok i hi
    unfold invDateOk at this
    rwa [hd] at this
  have key : ∀ n : Dt, filterInvoicesByTimeRange dparse n invs "1month"
      = invs.filter (fun i => sameMonthB (invEffDate dparse i) (invEffDate dparse anchor)) := by
    intro n
    match invs, ha with
    | inv0 :: rest, ha =>
      set M := mostRecentInv dparse inv0 (inv0 :: rest) with hM
      have hM_mem : M ∈ inv0 :: rest := by
        rcases mostRecentInv_mem dparse (inv0 :: rest) inv0 with h | h
        · rw [← hM] at h; rw [h]; exact List.mem_cons_self _ _
        · rw [← hM] at h; exact h
      have hMmax := mostRecentInv_max dparse (inv0 :: rest) inv0
        (hvalid inv0 (List.mem_cons_self _ _)) hvalid
      obtain ⟨dM, hdM⟩ := Option.isSome_iff_exists.mp (by rw [← hM] at hMmax; exact hMmax.1)
      obtain ⟨dA, hdA⟩ := Option.isSome_iff_exists.mp (hvalid anchor ha)
      have hts : ts dM = ts dA := by
        have h1 : invTs dparse M ≤ invTs dparse anchor := hmax M hM_mem
        have h2 : invTs dparse anchor ≤ invTs dparse M := by
          have := hMmax.2.2 anchor ha
          rwa [← hM] at this
        have := le_antisymm h1 h2
        unfold invTs at this
        rwa [hdM, hdA] at this
      have hmi : dM.mi = dA.mi :=
        ts_mi_inj (hnormed M hM_mem dM hdM) (hnormed anchor ha dA hdA) hts
      have hanch : invAnchorDate dparse M = some dM := by
        rw [invAnchorDate_eq_eff dparse M (hfield M hM_mem)]
        exact hdM
      show (inv0 :: rest).filter
          (fun inv => sameMonthB (invEffDate dparse inv) (invAnchorDate dparse M))
        = (inv0 :: rest).filter
            (fun i => sameMonthB (invEffDate dparse i) (invEffDate dparse anchor))
      rw [hanch, hdA]
      have : (fun inv => sameMonthB (invEffDate dparse inv) (some dM))
          = (fun inv => sameMonthB (invEffDate dparse inv) (some dA)) :=
        funext (fun inv => sameMonthB_congr hmi _)
      rw [this]
  exact ⟨key now, (key now).trans (key now').symm⟩

/-- A toy host date parser used by the concrete instances: three fixed
year-month strings mapped to consecutive months (small month indexes keep
kernel evaluation cheap; the filter theorems hold for every parser). -/
def dparseW (s : String) : Option Dt :=
  if s = "2024-01" then some ⟨288, 1⟩
  else if s = "2024-02" then some ⟨289, 1⟩
  else if s = "2024-03" then some ⟨290, 1⟩
  else none

/-- January invoice of the lastMonth-anchor scenario. -/
def invJan : Item := [("invoice_period", JSVal.str "2024-01")]

/-- February invoice of the lastMonth-anchor scenario. -/
def invFeb : Item := [("invoice_period", JSVal.str "2024-02")]

/-- March invoice of the lastMonth-anchor scenario. -/
def invMar : Item := [("invoice_period", JSVal.str "2024-03")]

set_option maxRecDepth 8000 in
theorem filterInvoices_lastMonth_anchor_w :
    (invMar ∈ [invJan, invFeb, invMar]
     ∧ (∀ i ∈ [invJan, invFeb, invMar], (invPeriodOrCreated i).isSome = true)
     ∧ (∀ i ∈ [invJan, invFeb, invMar], invDateOk dparseW i = true)
     ∧ (∀ i ∈ [invJan, invFeb, invMar], invTs dparseW i ≤ invTs dparseW invMar))
    ∧ filterInvoicesByTimeRange dparseW ⟨300, 5⟩ [invJan, invFeb, invMar] "1month"
        = [invJan, invFeb, invMar].filter
            (fun i => sameMonthB (invEffDate dparseW i) (invEffDate dparseW invMar))
    ∧ filterInvoicesByTimeRange dparseW ⟨300, 5⟩ [invJan, invFeb, invMar] "1month"
        = [invMar] :=
  ⟨⟨by decide, by decide, by decide, by decide⟩,
   (filterInvoices_lastMonth_anchor dparseW ⟨300, 5⟩ ⟨17, 2⟩ [invJan, invFeb, invMar] invMar
      (by decide) (by decide) (by decide) (by decide)).1,
   by decide⟩

/-- A line item dated March 2024, for the window-monotonicity instance. -/
def itemMar : Item := [("date", JSVal.str "2024-03")]

set_option maxRecDepth 8000 in
theorem filterLineItems_window_monotone_w :
    13 ≤ (⟨292, 1⟩ : Dt).mi
    ∧ itemMar ∈ filterLineItemsByTimeRange dparseW ⟨292, 1⟩ [itemMar] "3months"
    ∧ itemMar ∈ filterLineItemsByTimeRange dparseW ⟨292, 1⟩ [itemMar] "6months" :=
  ⟨by decide, by decide,
   (filterLineItems_window_monotone dparseW ⟨292, 1⟩ [itemMar] (by decide)).1 itemMar
     (by decide)⟩

/-- The result record `{ trendText, forecastAmount, confidenceText }` of
`calculateTrendAndForecast`. -/
structure TrendResult where
  trendText : String
  forecastAmount : ℚ
  confidenceText : String
deriving DecidableEq, Repr

/-- `array.reduce((sum, val) => sum + val, 0)`. -/
def qsum (l : List ℚ) : ℚ := l.foldl (fun a b => a + b) 0

/-- `Math.round`: round half towards positive infinity. -/
def jsRound (q : ℚ) : ℤ := ⌊q + 1 / 2⌋

/-- `v[i]` (every access the calculator performs is in range). -/
def getQ (l : List ℚ) (i : ℕ) : ℚ := l.getD i 0

/-- `array.slice(a, b)` with JS index normalization. -/
def jsSlice (l : List ℚ) (a b : ℤ) : List ℚ :=
  let n : ℤ := l.length
  let s := if a < 0 then max (n + a) 0 else min a n
  let e := if b < 0 then max (n + b) 0 else min b n
  (l.drop s.toNat).take (e - s).toNat

/-- `array.slice(a)`. -/
def jsSliceFrom (l : List ℚ) (a : ℤ) : List ℚ := jsSlice l a l.length

/-- Stable insertion of `x` before the first strictly larger element. -/
def insQ (x : ℚ) : List ℚ → List ℚ
  | [] => [x]
  | y :: ys => if y < x then y :: insQ x ys else x :: y :: ys

/-- Model of `array.sort((a, b) => a - b)`: stable ascending sort. -/
def sortQ : List ℚ → List ℚ
  | [] => []
  | x :: xs => insQ x (sortQ xs)

/-- `x.toFixed(1)`: round to one decimal (ties towards `+∞`) and print. -/
def toFixed1 (q : ℚ) : String :=
  let n : ℤ := ⌊q * 10 + 1 / 2⌋
  (if n < 0 then "-" else "") ++ toString (n.natAbs / 10) ++ "." ++ toString (n.natAbs % 10)

/-- The trend text: percent change of the last point against the previous
one (absolute value in the denominator), `N/A` without two points. -/
def trendTextOf (fullDataset : Bool) (lastSpend prevSpend : ℚ) : String :=
  if fullDataset && !(decide (prevSpend = 0)) then
    let change := lastSpend - prevSpend
    let percentChange := change / |prevSpend| * 100
    if 0 ≤ change then "Up " ++ toFixed1 percentChange ++ "%"
    else "Down " ++ toFixed1 |percentChange| ++ "%"
  else "N/A"

/-- The 12-plus-months ensemble forecast (trend-growth model blended with
a seasonally adjusted moving average).  `powf`/`sqrtf` model the host
`Math.pow`/`Math.sqrt`. -/
def forecast12Plus (powf : ℚ → ℚ → ℚ) (sqrtf : ℚ → ℚ)
    (values : List ℚ) (lastSpend : ℚ) : ℚ × String :=
  let n := values.length
  let last3MonthsAvg := qsum (jsSliceFrom values (-3)) / 3
  let last6MonthsAvg := qsum (jsSliceFrom values (-6)) / 6
  let recentGrowthRates := ((List.range (min 6 n)).drop 1).filterMap (fun i =>
    if getQ values (n - i - 1) ≠ 0 then some (getQ values (n - i) / getQ values (n - i - 1))
    else none)
  let avgGrowthRate :=
    if recentGrowthRates.length ≠ 0 then
      qsum recentGrowthRates / (recentGrowthRates.length : ℚ)
    else 1
  let seasonalFactor :=
    if 12 < n then
      let sameMonthLastYear := getQ values (n - 12)
      let trailingAvgLastYear := qsum (jsSlice values (-15) (-9)) / 6
      if trailingAvgLastYear ≠ 0 then sameMonthLastYear / trailingAvgLastYear else 1
    else
      let firstHalfAvg := qsum (jsSlice values 0 6) / 6
      let secondHalfAvg := qsum (jsSliceFrom values (-6)) / 6
      if firstHalfAvg ≠ 0 then powf (secondHalfAvg / firstHalfAvg) (1 / 6) else 1
  let seasonalFactor := max (8 / 10) (min (12 / 10) seasonalFactor)
  let mean := qsum values / (n : ℚ)
  let variance := qsum (values.map (fun v => (v - mean) ^ 2)) / (n : ℚ)
  let coefficientOfVariation := if 0 < |mean| then sqrtf variance / |mean| else 0
  let trendModelForecast := lastSpend * avgGrowthRate
  let movingAvgForecast := (last3MonthsAvg * (7 / 10) + last6MonthsAvg * (3 / 10)) * seasonalFactor
  let confidencePercent : ℤ := min 25 (max 5 (jsRound (coefficientOfVariation * 100)))
  (trendModelForecast * (6 / 10) + movingAvgForecast * (4 / 10),
   "Based on " ++ toString n ++ " months with seasonal adjustment, ±"
     ++ toString confidencePercent ++ "%")

/-- The 6-to-11-months forecast: exponentially weighted moving average
times a capped first-half/second-half growth factor. -/
def forecast6To11 (powf : ℚ → ℚ → ℚ) (sqrtf : ℚ → ℚ) (values : List ℚ) : ℚ × String :=
  let n := values.length
  let weights : List ℚ := [35/100, 25/100, 15/100, 10/100, 8/100, 7/100]
  let idxs := List.range (min 6 n)
  let weightedSum := qsum (idxs.map (fun i => getQ values (n - 1 - i) * getQ weights i))
  let weightSum := qsum (idxs.map (fun i => getQ weights i))
  let weightedAvg := weightedSum / weightSum
  let firstHalf := jsSlice values 0 (n / 2 : ℕ)
  let secondHalf := jsSliceFrom values (n / 2 : ℕ)
  let firstHalfAvg := qsum firstHalf / (firstHalf.length : ℚ)
  let secondHalfAvg := qsum secondHalf / (secondHalf.length : ℚ)
  let growthFactor :=
    if firstHalfAvg ≠ 0 then
      max (9 / 10) (min (11 / 10) (powf (secondHalfAvg / firstHalfAvg) (1 / (secondHalf.length : ℚ))))
    else 102 / 100
  let mean := qsum values / (n : ℚ)
  let variance := qsum (values.map (fun v => (v - mean) ^ 2)) / (n : ℚ)
  let relativeVariance := if 0 < |mean| then sqrtf variance / |mean| else 0
  let confidencePercent : ℤ := min 20 (max 8 (jsRound (relativeVariance * 100)))
  (weightedAvg * growthFactor,
   "Based on " ++ toString n ++ " months trend analysis, ±"
     ++ toString confidencePercent ++ "%")

/-- The 3-to-5-months forecast: least-squares projection adjusted by a
damped second-difference term, bounded relative to the last value. -/
def forecast3To5 (sqrtf : ℚ → ℚ) (values : List ℚ) : ℚ × String :=
  let n := values.length
  let idx := List.range n
  let sumX := qsum (idx.map (fun (i : ℕ) => (i : ℚ)))
  let sumY := qsum values
  let sumXY := qsum (idx.map (fun (i : ℕ) => (i : ℚ) * getQ values i))
  let sumX2 := qsum (idx.map (fun (i : ℕ) => (i : ℚ) ^ 2))
  let denominator := (n : ℚ) * sumX2 - sumX * sumX
  let slope := if denominator ≠ 0 then ((n : ℚ) * sumXY - sumX * sumY) / denominator else 0
  let intercept := (sumY - slope * sumX) / (n : ℚ)
  let baseProjection := intercept + slope * (n : ℚ)
  let firstDiffs := (List.range (n - 1)).map (fun i => getQ values (i + 1) - getQ values i)
  let diffSum := qsum ((List.range (firstDiffs.length - 1)).map
    (fun i => getQ firstDiffs (i + 1) - getQ firstDiffs i))
  let acceleration :=
    if 1 < firstDiffs.length then diffSum / ((firstDiffs.length - 1 : ℕ) : ℚ) * (1 / 2) else 0
  let f0 := baseProjection + acceleration
  let lastValue := getQ values (n - 1)
  let f1 := if f0 < lastValue * (1 / 2) ∧ 0 < lastValue then lastValue * (9 / 10) else f0
  let f2 := if lastValue * 2 < f1 ∧ 0 < lastValue then lastValue * (13 / 10) else f1
  let sumSquaredErrors := qsum (idx.map (fun (i : ℕ) => (getQ values i - (intercept + slope * (i : ℚ))) ^ 2))
  let standardError := sqrtf (sumSquaredErrors / ((n : ℚ) - 2))
  let meanValue := sumY / (n : ℚ)
  let confidencePercent : ℤ :=
    if 0 < |meanValue| then min 25 (max 10 (jsRound (standardError / |meanValue| * 100)))
    else 15
  (f2,
   "Based on " ++ toString n ++ " months regression analysis, ±"
     ++ toString confidencePercent ++ "%")

/-- The 2-months forecast: damped growth ratio with a reasonability bound. -/
def forecast2 (lastSpend prevSpend : ℚ) : ℚ × String :=
  let growthRate := if prevSpend ≠ 0 then lastSpend / prevSpend else 1
  let dampening : ℚ := if 3 / 2 < growthRate ∨ growthRate < 3 / 4 then 1 / 2 else 7 / 10
  let dampedGrowthRate := 1 + (growthRate - 1) * dampening
  let f0 := lastSpend * dampedGrowthRate
  let absLastSpend := |lastSpend|
  let f1 :=
    if absLastSpend * (13 / 10) < |f0| then
      lastSpend * (if 0 ≤ lastSpend then 13 / 10 else 7 / 10)
    else f0
  (f1, "Based on 2 months of data, high uncertainty (±20%)")

/-- The regime-dependent part of `calculateTrendAndForecast`: trend text
and forecast before the anomaly-damping block.  (The JS `Insufficient
data` arm is unreachable: one-point and multi-point series are handled
by the two cases above it.) -/
def regimeTrendForecast (powf : ℚ → ℚ → ℚ) (sqrtf : ℚ → ℚ)
    (labels : List String) (values : List ℚ) (itemCount : ℕ) : TrendResult :=
  if values.length = 0 then
    ⟨"N/A", 0, "No data available"⟩
  else
    let n := values.length
    let lastSpend := getQ values (n - 1)
    let prevSpend := if 2 ≤ n then getQ values (n - 2) else lastSpend
    let fullDataset : Bool := 2 ≤ n
    let trendText := trendTextOf fullDataset lastSpend prevSpend
    if !fullDataset then
      ⟨trendText, lastSpend * (103 / 100), "Based on limited visible data, high variance possible"⟩
    else if 12 ≤ n then
      let r := forecast12Plus powf sqrtf values lastSpend
      ⟨trendText, r.1, r.2⟩
    else if 6 ≤ n then
      let r := forecast6To11 powf sqrtf values
      ⟨trendText, r.1, r.2⟩
    else if 3 ≤ n then
      let r := forecast3To5 sqrtf values
      ⟨trendText, r.1, r.2⟩
    else
      let r := forecast2 lastSpend prevSpend
      ⟨trendText, r.1, r.2⟩

/-- Upper median `sorted[Math.floor(n / 2)]` of the series. -/
def medianOf (values : List ℚ) : ℚ :=
  getQ (sortQ values) (values.length / 2)

/-- Average of the three points preceding the last. -/
def trailing3Avg (values : List ℚ) : ℚ :=
  (getQ values (values.length - 2) + getQ values (values.length - 3)
    + getQ values (values.length - 4)) / 3

/-- Relative deviation `|last − base| / |base|` (0 when the base is 0). -/
def relDeviation (lastSpend base : ℚ) : ℚ :=
  if 0 < |base| then |lastSpend - base| / |base| else 0

/-- Deviation of the last point from the median of all points. -/
def medianDeviationOf (values : List ℚ) : ℚ :=
  relDeviation (getQ values (values.length - 1)) (medianOf values)

/-- Deviation of the last point from the trailing three-month average. -/
def recentDeviationOf (values : List ℚ) : ℚ :=
  relDeviation (getQ values (values.length - 1)) (trailing3Avg values)

/-- The anomaly-damping block applied after the regime forecast. -/
def anomalyAdjust (values : List ℚ) (r : TrendResult) : TrendResult :=
  if 4 ≤ values.length then
    if 3 / 10 < medianDeviationOf values ∧ 1 / 4 < recentDeviationOf values then
      let blendedBaseline := trailing3Avg values * (7 / 10) + medianOf values * (3 / 10)
      ⟨r.trendText, r.forecastAmount * (4 / 10) + blendedBaseline * (6 / 10),
       r.confidenceText ++ " (adjusted for potential anomaly)"⟩
    else r
  else r

/-- `calculateTrendAndForecast(labels, values, itemCount)`. -/
def calculateTrendAndForecast (powf : ℚ → ℚ → ℚ) (sqrtf : ℚ → ℚ)
    (labels : List String) (values : List ℚ) (itemCount : ℕ) : TrendResult :=
  anomalyAdjust values (regimeTrendForecast powf sqrtf labels values itemCount)

/-- Stand-in for the host `Math.pow` in concrete instances. -/
def hostPow0 : ℚ → ℚ → ℚ := fun _ _ => 0

/-- Stand-in for the host `Math.sqrt` in concrete instances. -/
def hostSqrt0 : ℚ → ℚ := fun _ => 0

/-- C8: for a series of at least 4 points, when the last point deviates by
more than 30% from the median of all points and by more than 25% from the
trailing three-month average, the final forecast is 0.4 times the regime
forecast plus 0.6 times the blend `0.7 * trailing average + 0.3 * median`
and the confidence label gains the anomaly annotation; when either
threshold is not exceeded the regime result is returned unchanged. -/
theorem calculateTrendAndForecast_anomaly (powf : ℚ → ℚ → ℚ) (sqrtf : ℚ → ℚ) (labels : List String)
    (values : List ℚ) (itemCount : ℕ) (h4 : 4 ≤ values.length) :
    ((3 / 10 < medianDeviationOf values ∧ 1 / 4 < recentDeviationOf values) →
      (calculateTrendAndForecast powf sqrtf labels values itemCount).forecastAmount
        = (regimeTrendForecast powf sqrtf labels values itemCount).forecastAmount * (4 / 10)
          + (trailing3Avg values * (7 / 10) + medianOf values * (3 / 10)) * (6 / 10)
      ∧ (calculateTrendAndForecast powf sqrtf labels values itemCount).confidenceText
        = (regimeTrendForecast powf sqrtf labels values itemCount).confidenceText
            ++ " (adjusted for potential anomaly)"
      ∧ (calculateTrendAndForecast powf sqrtf labels values itemCount).trendText
        = (regimeTrendForecast powf sqrtf labels values itemCount).trendText)
    ∧ (¬(3 / 10 < medianDeviationOf values ∧ 1 / 4 < recentDeviationOf values) →
      calculateTrendAndForecast powf sqrtf labels values itemCount
        = regimeTrendForecast powf sqrtf labels values itemCount) := by
  unfold calculateTrendAndForecast anomalyAdjust
  rw [if_pos h4]
  constructor
  · intro hdev
    rw [if_pos hdev]
    exact ⟨rfl, rfl, rfl⟩
  · intro hdev
    rw [if_neg hdev]

theorem calculateTrendAndForecast_anomaly_w :
    4 ≤ ([10, 10, 10, 100] : List ℚ).length
    ∧ (3 / 10 < medianDeviationOf [10, 10, 10, 100]
       ∧ 1 / 4 < recentDeviationOf [10, 10, 10, 100])
    ∧ (calculateTrendAndForecast hostPow0 hostSqrt0 [] [10, 10, 10, 100] 4).forecastAmount
        = (regimeTrendForecast hostPow0 hostSqrt0 [] [10, 10, 10, 100] 4).forecastAmount * (4 / 10)
          + (trailing3Avg [10, 10, 10, 100] * (7 / 10)
             + medianOf [10, 10, 10, 100] * (3 / 10)) * (6 / 10) := by
  have hdev : 3 / 10 < medianDeviationOf [10, 10, 10, 100]
      ∧ 1 / 4 < recentDeviationOf [10, 10, 10, 100] := by
    constructor <;>
      norm_num [medianDeviationOf, recentDeviationOf, relDeviation, medianOf, trailing3Avg,
        sortQ, insQ, getQ]
  exact ⟨by norm_num,
    hdev,
    ((calculateTrendAndForecast_anomaly hostPow0 hostSqrt0 [] [10, 10, 10, 100] 4 (by norm_num)).1 hdev).1⟩

/-- `{ labels, values }` of the monthly chart. -/
structure MonthlyData where
  labels : List String
  values : List ℚ
deriving DecidableEq, Repr

/-- The summary block of the visualization data. -/
structure VizSummary where
  totalAmount : ℚ
  invoiceCount : ℕ
  totalItems : ℕ
  discountItems : ℕ
  totalDiscountAmount : ℚ
  trendText : String
  forecastAmount : ℚ
  confidenceText : String
deriving DecidableEq, Repr

/-- The result shape of `processCSVDataForVisualizations`; the dimension
maps are insertion-ordered label/total association lists. -/
structure VizData where
  monthlyData : MonthlyData
  categoryData : List (String × ℚ)
  projectData : List (String × ℚ)
  productData : List (String × ℚ)
  summary : VizSummary
deriving DecidableEq, Repr

/-- `createEmptyVisualizationData()`. -/
def createEmptyVisualizationData : VizData :=
  { monthlyData := ⟨[], []⟩
    categoryData := [("No Data", 0)]
    projectData := [("No Data", 0)]
    productData := [("No Data", 0)]
    summary := ⟨0, 0, 0, 0, 0, "N/A", 0, "No data available"⟩ }

/-- `obj[k] = (obj[k] || 0) + amt` on an insertion-ordered object. -/
def bumpKey (m : List (String × ℚ)) (k : String) (amt : ℚ) : List (String × ℚ) :=
  match m with
  | [] => [(k, amt)]
  | (k', v) :: rest =>
    if k' = k then (k', v + amt) :: rest else (k', v) :: bumpKey rest k amt

/-- `obj[k]` with `0` for a missing key. -/
def getAmt (m : List (String × ℚ)) (k : String) : ℚ :=
  match m.find? (fun kv => kv.1 = k) with
  | some kv => kv.2
  | none => 0

/-- The month label `${date.getFullYear()}-${pad2(date.getMonth() + 1)}`. -/
def fmtYM (d : Dt) : String :=
  toString (d.mi / 12) ++ "-"
    ++ (if d.mi % 12 + 1 < 10 then "0" else "") ++ toString (d.mi % 12 + 1)

/-- The month label of an item: `invoice_period`, else `YYYY-MM` derived
from a parseable `start` date, else none. -/
def monthOf (dparse : String → Option Dt) (item : Item) : Option String :=
  match textOr item "invoice_period" with
  | some s => some s
  | none =>
    match textOr item "start" with
    | some s => (dparse s).map fmtYM
    | none => none

/-- Category label: discount taxonomy for discount items, else the
`category`/`name`/`product`/`description` chain with default `Unknown`. -/
def categoryLabel (item : Item) : String :=
  if isDiscountItem item then categorizeDiscountItem item
  else
    match textOr item "category" with
    | some s => s
    | none =>
      match textOr item "name" with
      | some s => s
      | none =>
        match textOr item "product" with
        | some s => s
        | none =>
          match textOr item "description" with
          | some s => s
          | none => "Unknown"

/-- Product label: discount taxonomy for discount items, else the
`product`/`name`/`type` chain with default `Unknown`. -/
def productLabel (item : Item) : String :=
  if isDiscountItem item then categorizeDiscountItem item
  else
    match textOr item "product" with
    | some s => s
    | none =>
      match textOr item "name" with
      | some s => s
      | none =>
        match textOr item "type" with
        | some s => s
        | none => "Unknown"

/-- Project label `item.project_name || 'Unassigned'`. -/
def projectLabel (item : Item) : String :=
  match textOr item "project_name" with
  | some s => s
  | none => "Unassigned"

/-- The accumulators of the aggregation loop. -/
structure AggState where
  monthlySpend : List (String × ℚ)
  categorySpend : List (String × ℚ)
  projectSpend : List (String × ℚ)
  productSpend : List (String × ℚ)
  totalAmount : ℚ
  discountItemCount : ℕ
  totalDiscountAmount : ℚ
deriving DecidableEq, Repr

/-- The empty accumulators. -/
def initAggState : AggState := ⟨[], [], [], [], 0, 0, 0⟩

/-- One iteration of the `forEach` of `processCSVDataForVisualizations`:
track discounts, bucket by month / category / project / product, add to
the running total. -/
def processItem (dparse : String → Option Dt) (st : AggState) (item : Item) : AggState :=
  let amount := extractMonetaryValue item
  let st :=
    if amount < 0 then
      { st with discountItemCount := st.discountItemCount + 1,
                totalDiscountAmount := st.totalDiscountAmount + amount }
    else st
  let st :=
    match monthOf dparse item with
    | some m => { st with monthlySpend := bumpKey st.monthlySpend m amount }
    | none => st
  let category := categoryLabel item
  let st :=
    if category ≠ "" then
      { st with categorySpend := bumpKey st.categorySpend category amount }
    else st
  let st := { st with projectSpend := bumpKey st.projectSpend (projectLabel item) amount }
  let st := { st with productSpend := bumpKey st.productSpend (productLabel item) amount }
  { st with totalAmount := st.totalAmount + amount }

/-- `/^\d{4}-\d{2}$/`-guarded month-name search of `parseMonthPeriod`:
a maximal letter run, at least one whitespace, then four digits, tried at
each start position left to right (the regex `([A-Za-z]+)\s+(\d{4})`). -/
def monthYearAt (cs : List Char) : Option (List Char × List Char) :=
  let w := cs.takeWhile (fun c => c.isAlpha)
  if w.isEmpty then none
  else
    let r1 := cs.dropWhile (fun c => c.isAlpha)
    let sp := r1.takeWhile (fun c => c = ' ' ∨ c = '\t' ∨ c = '\n' ∨ c = '\r')
    if sp.isEmpty then none
    else
      match r1.dropWhile (fun c => c = ' ' ∨ c = '\t' ∨ c = '\n' ∨ c = '\r') with
      | a :: b :: c2 :: d :: _ =>
        if a.isDigit && b.isDigit && c2.isDigit && d.isDigit then some (w, [a, b, c2, d])
        else none
      | _ => none

/-- Scan every start position for the month-name pattern. -/
def monthYearSearch : List Char → Option (List Char × List Char)
  | [] => none
  | c :: rest =>
    match monthYearAt (c :: rest) with
    | some r => some r
    | none => monthYearSearch rest

/-- The lower-cased English month names. -/
def monthNames : List String :=
  ["january", "february", "march", "april", "may", "june",
   "july", "august", "september", "october", "november", "december"]

/-- `monthNames.indexOf(word.toLowerCase())` (`none` = `-1`). -/
def monthIndexOf (w : String) : Option ℕ :=
  monthNames.findIdx? (fun m => m = lowerString w)

/-- `parseMonthPeriod(periodStr)`: empty → epoch; `YYYY-MM` → first of
that month through the host parser; else a `Month YYYY` pattern; else
the host parser (`none` models an Invalid Date). -/
def parseMonthPeriod (dparse : String → Option Dt) (s : String) : Option Dt :=
  if s = "" then some epochDt
  else if isYYYYMM s then dparse (s ++ "-01")
  else
    match monthYearSearch s.data with
    | some (w, y4) =>
      match monthIndexOf (String.mk w) with
      | some m => some ⟨natOfDigits y4 * 12 + m, 1⟩
      | none => dparse s
    | none => dparse s

/-- The month-key comparator `parseMonthPeriod(a) - parseMonthPeriod(b)`
as a strictly-less test; a comparison against an Invalid Date (`NaN`)
counts as equal, which a stable sort leaves in place. -/
def periodLT (dparse : String → Option Dt) (a b : String) : Bool :=
  match parseMonthPeriod dparse a, parseMonthPeriod dparse b with
  | some x, some y => decide (ts x < ts y)
  | _, _ => false

/-- Stable insertion before the first strictly later month key. -/
def insPeriod (dparse : String → Option Dt) (x : String) : List String → List String
  | [] => [x]
  | y :: ys => if periodLT dparse y x then y :: insPeriod dparse x ys else x :: y :: ys

/-- Model of the stable comparator sort of the month keys. -/
def sortPeriods (dparse : String → Option Dt) : List String → List String
  | [] => []
  | x :: xs => insPeriod dparse x (sortPeriods dparse xs)

/-- The accumulators of the `processInvoiceTotals` loop. -/
structure TotState where
  invoiceAmounts : List (String × ℚ)
  seen : List String
  totalAmount : ℚ
deriving DecidableEq, Repr

/-- One iteration of the fallback loop: items without `invoice_uuid` or
`invoice_period` (or from an invoice already seen, or with an
unparseable `invoice_amount`) are skipped; otherwise the invoice total
is added once per invoice (a missing or falsy `invoice_amount` counts 0). -/
def totStep (st : TotState) (item : Item) : TotState :=
  match textOr item "invoice_uuid", textOr item "invoice_period" with
  | some uuid, some period =>
    if st.seen.contains uuid then st
    else
      let amount : Option ℚ :=
        match getField item "invoice_amount" with
        | some (JSVal.str s) => if s = "" then some 0 else parseFloat (cleanCurrency s)
        | some (JSVal.num a) => some a
        | none => some 0
      match amount with
      | none => st
      | some a =>
        { invoiceAmounts := bumpKey st.invoiceAmounts period a,
          seen := st.seen ++ [uuid],
          totalAmount := st.totalAmount + a }
  | _, _ => st

/-- `processInvoiceTotals(lineItems)`: the fallback that aggregates one
amount per invoice; each dimension map is the single bucket the JS
accumulates the same total into. -/
def processInvoiceTotals (dparse : String → Option Dt) (powf : ℚ → ℚ → ℚ) (sqrtf : ℚ → ℚ)
    (lineItems : List Item) : VizData :=
  let st := lineItems.foldl totStep ⟨[], [], 0⟩
  let sortedMonths := sortPeriods dparse (st.invoiceAmounts.map (fun kv => kv.1))
  let monthlyValues := sortedMonths.map (fun m => getAmt st.invoiceAmounts m)
  if st.totalAmount = 0 ∧ monthlyValues.all (fun v => v = 0) then
    createEmptyVisualizationData
  else
    let r := calculateTrendAndForecast powf sqrtf sortedMonths monthlyValues st.seen.length
    { monthlyData := ⟨sortedMonths, monthlyValues⟩
      categoryData := [("All Services", st.totalAmount)]
      projectData := [("All Projects", st.totalAmount)]
      productData := [("All Products", st.totalAmount)]
      summary := ⟨st.totalAmount, st.seen.length, lineItems.length, 0, 0,
                  r.trendText, r.forecastAmount, r.confidenceText⟩ }

/-- `processCSVDataForVisualizations(lineItems)`; the call sites modelled
here pass no `timeRange`, so no line-item filter is applied.  The item
loop counts every processed item as valid, so the invoice-totals fallback
(kept for fidelity) is unreachable for a non-empty input. -/
def processCSVDataForVisualizations (dparse : String → Option Dt)
    (powf : ℚ → ℚ → ℚ) (sqrtf : ℚ → ℚ) (lineItems : List Item) : VizData :=
  if lineItems.length = 0 then createEmptyVisualizationData
  else
    let st := lineItems.foldl (processItem dparse) initAggState
    let validItemCount := lineItems.length
    if validItemCount = 0 then processInvoiceTotals dparse powf sqrtf lineItems
    else
      let sortedMonths := sortPeriods dparse (st.monthlySpend.map (fun kv => kv.1))
      let monthlyValues := sortedMonths.map (fun m => getAmt st.monthlySpend m)
      let r := calculateTrendAndForecast powf sqrtf sortedMonths monthlyValues validItemCount
      { monthlyData := ⟨sortedMonths, monthlyValues⟩
        categoryData := st.categorySpend
        projectData := st.projectSpend
        productData := st.productSpend
        summary := ⟨st.totalAmount, st.monthlySpend.length, validItemCount,
                    st.discountItemCount, st.totalDiscountAmount,
                    r.trendText, r.forecastAmount, r.confidenceText⟩ }

/-- The `Compute` charge of the discount-netting scenario. -/
def chargeCompute : Item := [("category", JSVal.str "Compute"), ("USD", JSVal.str "100.00")]

/-- The `Contract Discount` line of the discount-netting scenario. -/
def discountCompute : Item :=
  [("category", JSVal.str "Compute"), ("description", JSVal.str "Contract Discount"),
   ("USD", JSVal.str "-20.00")]

/-- C1 counterexample: on the two-record scenario the category buckets are
`Compute = 100` and a separate `Contract Discount = -20`; the `Compute`
bucket is not `80` and a discount-taxonomy bucket does exist, because a
negative amount alone forces discount classification and relabeling even
when charge and discount carry the same category. -/
theorem discount_netting_cex :
    (processCSVDataForVisualizations (fun _ => none) hostPow0 hostSqrt0
        [chargeCompute, discountCompute]).categoryData
      = [("Compute", 100), ("Contract Discount", -20)]
    ∧ getAmt (processCSVDataForVisualizations (fun _ => none) hostPow0 hostSqrt0
        [chargeCompute, discountCompute]).categoryData "Compute" ≠ 80
    ∧ getAmt (processCSVDataForVisualizations (fun _ => none) hostPow0 hostSqrt0
        [chargeCompute, discountCompute]).categoryData "Contract Discount" ≠ 0 := by
  have h : (processCSVDataForVisualizations (fun _ => none) hostPow0 hostSqrt0
      [chargeCompute, discountCompute]).categoryData
      = [("Compute", 100), ("Contract Discount", -20)] := by
    simp +decide [processCSVDataForVisualizations, processItem, initAggState, chargeCompute,
      discountCompute, extractMonetaryValue, getField, parseFloat, parseFloatFrom,
      cleanCurrency, natOfDigits, fracOfDigits, isDiscountItem, categorizeDiscountItem,
      lowerTextField, lowerString, charToLower, lowerPairs, discountKeywords, strContainsB,
      charsInfix, charsPrefix, monthOf, textOr, categoryLabel, productLabel, projectLabel,
      bumpKey, getAmt, sortPeriods, calculateTrendAndForecast, anomalyAdjust,
      regimeTrendForecast]
  refine ⟨h, ?_, ?_⟩ <;> rw [h] <;> simp +decide [getAmt, List.find?] <;> norm_num

/-- C1 (amended): aggregating the two-record scenario yields the buckets
`Compute = 100.00` and `Contract Discount = -20.00` — the negative line
is a discount (negative amount) and is relabeled by the discount
taxonomy (`description` contains `contract`) instead of being netted into
`Compute`; the discount still nets the overall total to `80.00`. -/
theorem discount_netting_relabel :
    (processCSVDataForVisualizations (fun _ => none) hostPow0 hostSqrt0
        [chargeCompute, discountCompute]).categoryData
      = [("Compute", 100), ("Contract Discount", -20)]
    ∧ (processCSVDataForVisualizations (fun _ => none) hostPow0 hostSqrt0
        [chargeCompute, discountCompute]).summary.totalAmount = 80
    ∧ isDiscountItem discountCompute = true
    ∧ categorizeDiscountItem discountCompute = "Contract Discount" := by
  refine ⟨?_, ?_, ?_, ?_⟩ <;>
    simp +decide [processCSVDataForVisualizations, processItem, initAggState, chargeCompute,
      discountCompute, extractMonetaryValue, getField, parseFloat, parseFloatFrom,
      cleanCurrency, natOfDigits, fracOfDigits, isDiscountItem, categorizeDiscountItem,
      lowerTextField, lowerString, charToLower, lowerPairs, discountKeywords, strContainsB,
      charsInfix, charsPrefix, monthOf, textOr, categoryLabel, productLabel, projectLabel,
      bumpKey, getAmt, sortPeriods, calculateTrendAndForecast, anomalyAdjust,
      regimeTrendForecast] <;> norm_num

/-- C9 counterexample: the empty-input result's bucket maps are not empty:
each dimension map holds the single sentinel entry `No Data = 0`. -/
theorem empty_input_sentinel_cex :
    (processCSVDataForVisualizations (fun _ => none) hostPow0 hostSqrt0 []).categoryData
      = [("No Data", 0)]
    ∧ (processCSVDataForVisualizations (fun _ => none) hostPow0 hostSqrt0 []).categoryData
      ≠ ([] : List (String × ℚ)) := by
  constructor
  · rfl
  · intro h
    simp [processCSVDataForVisualizations, createEmptyVisualizationData] at h

/-- C9 (amended): the pipeline is a total function; on the empty input it
returns the explicit degenerate value: empty monthly series, a single
`No Data = 0` sentinel bucket per dimension, and an all-zero summary with
trend text `N/A` (no trend) and forecast `0`; a zero-point monthly series
likewise yields trend text `N/A` and forecast `0` for any item count. -/
theorem empty_input_degenerate (dparse : String → Option Dt)
    (powf : ℚ → ℚ → ℚ) (sqrtf : ℚ → ℚ) (k : ℕ) :
    processCSVDataForVisualizations dparse powf sqrtf [] = createEmptyVisualizationData
    ∧ createEmptyVisualizationData
      = ⟨⟨[], []⟩, [("No Data", 0)], [("No Data", 0)], [("No Data", 0)],
         ⟨0, 0, 0, 0, 0, "N/A", 0, "No data available"⟩⟩
    ∧ (calculateTrendAndForecast powf sqrtf [] [] k).trendText = "N/A"
    ∧ (calculateTrendAndForecast powf sqrtf [] [] k).forecastAmount = 0 := by
  refine ⟨rfl, rfl, ?_, ?_⟩ <;>
    simp [calculateTrendAndForecast, anomalyAdjust, regimeTrendForecast]
